import Mathlib

/-!
Shallow embedding of the debutants dashboard pipeline
(src/py_github_debutants_01.py): data normalization, derived metrics,
filtering, presentation formatting and export.  Nullable spreadsheet
cells are modelled with `Option`; general cells (which in pandas can
hold a string, a number, or NaN) with `PyVal`.  Numbers are modelled
as rationals.
-/

namespace Debutants

/-- A pandas cell value: NaN/None, a string, or a number. -/
inductive PyVal where
  | null : PyVal
  | str (s : String) : PyVal
  | num (q : ℚ) : PyVal
deriving DecidableEq, Repr

/-- A calendar date (the payload of a parsed `Debut Date` cell). -/
structure Date where
  year : Nat
  month : Nat
  day : Nat
deriving DecidableEq, Repr

/-- Lexicographic year/month/day order on dates, as a Bool. -/
def Date.leb (a b : Date) : Bool :=
  decide (a.year < b.year ∨ (a.year = b.year ∧
    (a.month < b.month ∨ (a.month = b.month ∧ a.day ≤ b.day))))

/-- One row of the loaded table, after column renaming and date parsing
(`download_and_load_data`).  Nullable columns are `Option`s. -/
structure Row where
  competition : String
  country : Option String
  playerName : String
  position : String
  nationality : String
  debutClub : String
  opponent : String
  debutDate : Option Date
  debutMonth : Option String
  ageAtDebut : Option ℚ
  goalsFor : Option ℚ
  goalsAgainst : Option ℚ
  appearances : Option ℚ
  goals : Option ℚ
  minutesPlayed : Option ℚ
  valueAtDebut : Option ℚ
  currentMarketValue : Option ℚ
  playerUrl : PyVal
deriving DecidableEq, Repr

/-- Model of `calc_percent_change`: None when either monetary value is
missing or the baseline is zero, otherwise `(curr - debut) / debut * 100`. -/
def calc_percent_change (debut_val curr_val : Option ℚ) : Option ℚ :=
  match debut_val, curr_val with
  | some b, some c => if b = 0 then none else some ((c - b) / b * 100)
  | _, _ => none

/-- Model of the Bundesliga canonicalization (`data.loc[...] = '1. Bundesliga'`):
a competition literally named Bundesliga with country Germany is relabeled. -/
def canonComp (comp : String) (country : Option String) : String :=
  if comp = "Bundesliga" ∧ country = some "Germany" then "1. Bundesliga" else comp

/-- Normalization applied at load time: the competition-name correction.
Key/label/year derivation happens downstream of this. -/
def normalizeRow (r : Row) : Row :=
  { r with competition := canonComp r.competition r.country }

/-- Model of `data['CompCountryID'] = Competition + "||" + Country.fillna('')`. -/
def compCountryID (r : Row) : String :=
  r.competition ++ "||" ++ r.country.getD ""

/-- Model of `data['Competition (Country)'] = Competition + " (" + Country.fillna('') + ")"`. -/
def compLabelRow (r : Row) : String :=
  r.competition ++ " (" ++ r.country.getD "" ++ ")"

/-- Model of `data['Debut Year'] = data['Debut Date'].dt.year` (null date gives null year). -/
def debutYear (r : Row) : Option Nat :=
  r.debutDate.map Date.year

/-- Model of loading: every row gets the competition-name correction. -/
def loadData (raw : List Row) : List Row :=
  raw.map normalizeRow

/-- Model of the age screen `data = data[data['Age at Debut'] >= 0]`:
a pandas comparison against NaN is False, so null ages are dropped too. -/
def agePred (r : Row) : Bool :=
  r.ageAtDebut.elim false (fun a => decide (0 ≤ a))

/-- The working set the filter UI and all downstream stages operate on:
loaded rows that pass the age screen. -/
def loadAndScreen (raw : List Row) : List Row :=
  (loadData raw).filter agePred

/-- Model of Python `s.replace(ab, rep)` for a two-character pattern `a.b`:
scan left to right, replace each non-overlapping occurrence. -/
def pyReplacePair (a b : Char) (rep : List Char) : List Char → List Char
  | [] => []
  | [c] => [c]
  | c :: d :: cs =>
      if c = a ∧ d = b then rep ++ pyReplacePair a b rep cs
      else c :: pyReplacePair a b rep (d :: cs)

/-- Model of Python `s.replace(a, rep)` for a one-character pattern. -/
def pyReplaceChar (a : Char) (rep : List Char) : List Char → List Char
  | [] => []
  | c :: cs =>
      if c = a then rep ++ pyReplaceChar a rep cs
      else c :: pyReplaceChar a rep cs

/-- Model of the selector-label inversion
`c.replace(" (", "||").replace(")", "")` used to turn a displayed
"Competition (Country)" label back into a CompCountryID key. -/
def labelToId (s : String) : String :=
  (pyReplaceChar ')' [] (pyReplacePair ' ' '(' ['|', '|'] s.toList)).asString

/-- Composite key built from a competition and a (fillna) country string. -/
def compKey (comp country : String) : String :=
  comp ++ "||" ++ country

/-- Human-readable label built from a competition and a (fillna) country string. -/
def compLabel (comp country : String) : String :=
  comp ++ " (" ++ country ++ ")"

/-- Model of Python `str.isdigit` followed by `int`: a nonempty all-digit
string parses to its decimal value, anything else is ignored. -/
def parseYear (s : String) : Option Nat :=
  if s.toList ≠ [] ∧ s.toList.all Char.isDigit then
    some (s.toList.foldl (fun n c => n * 10 + (c.toNat - 48)) 0)
  else none

/-- Model of `valid_years = [int(y) for y in selected_years if y.isdigit()]`. -/
def validYears (ys : List String) : List Nat :=
  ys.filterMap parseYear

/-- The five user-chosen filter selections. -/
structure Selections where
  selComp : List String
  selMonths : List String
  selYears : List String
  maxAge : ℚ
  minMinutes : ℚ
deriving Repr

/-- Model of the five sequential filter steps applied when Run is clicked.
Each multiselect step is skipped when its selection is empty or contains
"All"; the two slider steps always apply (NaN comparisons are False). -/
def applyFilters (sel : Selections) (rows : List Row) : List Row :=
  let s1 := if sel.selComp ≠ [] ∧ "All" ∉ sel.selComp then
      rows.filter (fun r => decide (compCountryID r ∈ sel.selComp.map labelToId))
    else rows
  let s2 := if sel.selMonths ≠ [] ∧ "All" ∉ sel.selMonths then
      s1.filter (fun r => r.debutMonth.elim false (fun m => decide (m ∈ sel.selMonths)))
    else s1
  let s3 := if sel.selYears ≠ [] ∧ "All" ∉ sel.selYears then
      s2.filter (fun r => (debutYear r).elim false (fun y => decide (y ∈ validYears sel.selYears)))
    else s2
  let s4 := s3.filter (fun r => r.ageAtDebut.elim false (fun a => decide (a ≤ sel.maxAge)))
  s4.filter (fun r => r.minutesPlayed.elim false (fun m => decide (sel.minMinutes ≤ m)))

/-- Competition dimension as the spec states it: inactive (empty or "All")
passes everything, otherwise the row key must be among converted labels. -/
def compDim (sel : Selections) (r : Row) : Prop :=
  sel.selComp = [] ∨ "All" ∈ sel.selComp ∨ compCountryID r ∈ sel.selComp.map labelToId

/-- Month dimension: inactive passes everything, otherwise the row month
must be present and selected. -/
def monthDim (sel : Selections) (r : Row) : Prop :=
  sel.selMonths = [] ∨ "All" ∈ sel.selMonths ∨
    ∃ m, r.debutMonth = some m ∧ m ∈ sel.selMonths

/-- Year dimension: inactive passes everything, otherwise the row year must
be present and in the parsed integer set. -/
def yearDim (sel : Selections) (r : Row) : Prop :=
  sel.selYears = [] ∨ "All" ∈ sel.selYears ∨
    ∃ y, debutYear r = some y ∧ y ∈ validYears sel.selYears

/-- Age dimension: the age must be present and at or below the slider value. -/
def ageDim (sel : Selections) (r : Row) : Prop :=
  ∃ a, r.ageAtDebut = some a ∧ a ≤ sel.maxAge

/-- Minutes dimension: the minutes must be present and at or above the slider value. -/
def minutesDim (sel : Selections) (r : Row) : Prop :=
  ∃ m, r.minutesPlayed = some m ∧ sel.minMinutes ≤ m

/-- Comparator for `sort_values('Debut Date', ascending=False)`: dates
descending, null dates after every real date.  The source's tie order
among equal dates is implementation-defined; this model fixes one order. -/
def rowBefore (a b : Row) : Bool :=
  match a.debutDate, b.debutDate with
  | some x, some y => Date.leb y x
  | some _, none => true
  | none, some _ => false
  | none, none => true

/-- Insertion step of the sort model. -/
def insertRow (r : Row) : List Row → List Row
  | [] => [r]
  | x :: xs => if rowBefore r x then r :: x :: xs else x :: insertRow r xs

/-- Sort model: debut date descending, nulls last. -/
def sortByDateDesc (l : List Row) : List Row :=
  l.foldr insertRow []

/-- Zero-pad a day or month number to two digits, as `%d` / `%m` do. -/
def pad2 (n : Nat) : String :=
  if n < 10 then "0" ++ toString n else toString n

/-- Zero-pad a year to four digits, as `%Y` does. -/
def pad4 (n : Nat) : String :=
  if n < 10 then "000" ++ toString n
  else if n < 100 then "00" ++ toString n
  else if n < 1000 then "0" ++ toString n
  else toString n

/-- Model of `strftime('%d.%m.%Y')`. -/
def fmtDate (d : Date) : String :=
  pad2 d.day ++ "." ++ pad2 d.month ++ "." ++ pad4 d.year

/-- The rewritten `Debut Date` cell: a formatted string, or NaN for a null
date (pandas `dt.strftime` maps NaT to NaN). -/
def dateCell (r : Row) : PyVal :=
  match r.debutDate with
  | some d => PyVal.str (fmtDate d)
  | none => PyVal.null

/-- Regular expressions, used to transcribe the `sanitize_url` pattern. -/
inductive RE where
  | fail : RE
  | eps : RE
  | cls (p : Char → Bool) : RE
  | cat (a b : RE) : RE
  | alt (a b : RE) : RE
  | star (a : RE) : RE

/-- Smart concatenation, pruning dead and empty branches. -/
def catS (a b : RE) : RE :=
  match a, b with
  | RE.fail, _ => RE.fail
  | _, RE.fail => RE.fail
  | RE.eps, x => x
  | x, RE.eps => x
  | x, y => RE.cat x y

/-- Smart alternation, pruning dead branches. -/
def altS (a b : RE) : RE :=
  match a, b with
  | RE.fail, x => x
  | x, RE.fail => x
  | x, y => RE.alt x y

/-- Whether a regex accepts the empty string. -/
def nullable : RE → Bool
  | RE.fail => false
  | RE.eps => true
  | RE.cls _ => false
  | RE.cat a b => nullable a && nullable b
  | RE.alt a b => nullable a || nullable b
  | RE.star _ => true

/-- Brzozowski derivative of a regex by a character. -/
def derivRE (c : Char) : RE → RE
  | RE.fail => RE.fail
  | RE.eps => RE.fail
  | RE.cls p => if p c then RE.eps else RE.fail
  | RE.cat a b =>
      if nullable a then altS (catS (derivRE c a) b) (derivRE c b)
      else catS (derivRE c a) b
  | RE.alt a b => altS (derivRE c a) (derivRE c b)
  | RE.star a => catS (derivRE c a) (RE.star a)

/-- Whole-string regex match via derivatives. -/
def reMatch (r : RE) (s : List Char) : Bool :=
  nullable (s.foldl (fun t c => derivRE c t) r)

/-- A literal character. -/
def chrE (c : Char) : RE := RE.cls (fun x => x == c)

/-- A case-insensitive letter (the source compiles with `re.IGNORECASE`). -/
def ichr (c : Char) : RE := RE.cls (fun x => x.toLower == c)

/-- A case-insensitive literal word. -/
def istrE (s : String) : RE :=
  s.toList.foldr (fun c acc => RE.cat (ichr c) acc) RE.eps

/-- A character range such as `[0-3]`. -/
def clsRange (lo hi : Char) : RE :=
  RE.cls (fun c => decide (lo ≤ c ∧ c ≤ hi))

/-- The class `\d` (decimal digit). -/
def digitE : RE := RE.cls Char.isDigit

/-- The class `\S` (anything but whitespace). -/
def notSpaceE : RE :=
  RE.cls (fun c =>
    !(c == ' ' || c == '\t' || c == '\n' || c == '\r' || c == '\x0b' || c == '\x0c'))

/-- The class `[a-zA-Z\-0-9]`. -/
def alnumDashE : RE :=
  RE.cls (fun c => c.isAlpha || c.isDigit || c == '-')

/-- The quantifier `?`. -/
def optE (r : RE) : RE := RE.alt r RE.eps

/-- The quantifier `+`. -/
def plusE (r : RE) : RE := RE.cat r (RE.star r)

/-- The quantifier `{n}` (exact repetition). -/
def repE (r : RE) : Nat → RE
  | 0 => RE.eps
  | n + 1 => RE.cat r (repE r n)

/-- At most `n` further repetitions, for `{lo,hi}` quantifiers. -/
def upToE (r : RE) : Nat → RE
  | 0 => RE.eps
  | n + 1 => RE.cat (optE r) (upToE r n)

/-- Scheme part `(?:http|ftp)s?://` of the `sanitize_url` regex. -/
def schemeE : RE :=
  RE.cat (RE.alt (istrE "http") (istrE "ftp"))
    (RE.cat (optE (ichr 's')) (RE.cat (chrE ':') (RE.cat (chrE '/') (chrE '/'))))

/-- User-info part `(?:\S+(?::\S*)?@)?`. -/
def userinfoE : RE :=
  optE (RE.cat (plusE notSpaceE)
    (RE.cat (optE (RE.cat (chrE ':') (RE.star notSpaceE))) (chrE '@')))

/-- First IP octet `(?:[1-9]\d?|1\d\d|2[01]\d|22[0-3])`. -/
def octet1E : RE :=
  RE.alt (RE.cat (clsRange '1' '9') (optE digitE))
    (RE.alt (RE.cat (chrE '1') (RE.cat digitE digitE))
      (RE.alt (RE.cat (chrE '2') (RE.cat (clsRange '0' '1') digitE))
        (RE.cat (chrE '2') (RE.cat (chrE '2') (clsRange '0' '3')))))

/-- Middle IP octet `(?:1?\d{1,2}|2[0-4]\d|25[0-5])`. -/
def octet2E : RE :=
  RE.alt (RE.cat (optE (chrE '1')) (RE.cat digitE (optE digitE)))
    (RE.alt (RE.cat (chrE '2') (RE.cat (clsRange '0' '4') digitE))
      (RE.cat (chrE '2') (RE.cat (chrE '5') (clsRange '0' '5'))))

/-- IP alternative: first octet, two dotted middle octets, then `\.[0-9]{1,3}`. -/
def ipE : RE :=
  RE.cat octet1E
    (RE.cat (repE (RE.cat (chrE '.') octet2E) 2)
      (RE.cat (chrE '.') (RE.cat digitE (upToE digitE 2))))

/-- Domain alternative `(?:[a-zA-Z\-0-9]+\.)+[a-zA-Z]{2,}`. -/
def domainE : RE :=
  RE.cat (plusE (RE.cat (plusE alnumDashE) (chrE '.')))
    (RE.cat (RE.cls Char.isAlpha) (plusE (RE.cls Char.isAlpha)))

/-- Optional port `(?::\d{2,5})?`. -/
def portE : RE :=
  optE (RE.cat (chrE ':') (RE.cat digitE (RE.cat digitE (upToE digitE 3))))

/-- Optional path `(?:/\S*)?`. -/
def pathE : RE :=
  optE (RE.cat (chrE '/') (RE.star notSpaceE))

/-- The whole `sanitize_url` regex. -/
def urlRE : RE :=
  RE.cat schemeE (RE.cat userinfoE (RE.cat (RE.alt ipE domainE) (RE.cat portE pathE)))

/-- Model of `re.match` against a pattern anchored with `$`: the regex must
consume the whole string, or everything up to one trailing newline. -/
def pyMatchDollar (r : RE) (s : List Char) : Bool :=
  reMatch r s ||
    (match s.getLast? with
     | some c => if c = '\n' then reMatch r s.dropLast else false
     | none => false)

/-- Model of `sanitize_url`. -/
def sanitize_url (url : String) : Bool :=
  pyMatchDollar urlRE url.toList

/-- The hyperlink markup written into the `Player` column. -/
def anchorHtml (u name : String) : String :=
  "<a href=\"" ++ u ++ "\" target=\"_blank\">" ++ name ++ "</a>"

/-- Model of the `Player` column synthesis: a link when the URL cell is a
non-null string passing `sanitize_url`, the plain name otherwise. -/
def playerCell (r : Row) : PyVal :=
  match r.playerUrl with
  | PyVal.str u =>
      if sanitize_url u then PyVal.str (anchorHtml u r.playerName)
      else PyVal.str r.playerName
  | _ => PyVal.str r.playerName

/-- Lift an optional number to a cell. -/
def optNum : Option ℚ → PyVal
  | none => PyVal.null
  | some q => PyVal.num q

/-- The fixed ordered list of display columns of `final_df`. -/
def displayColumns : List String :=
  ["Competition", "Player", "Position", "Nationality", "Debut Club", "Opponent",
   "Debut Date", "Age at Debut", "Goals For", "Goals Against", "Appearances",
   "Goals", "Minutes Played", "Value at Debut", "Current Market Value", "% Change"]

/-- The `final_df` cells of one row, in display-column order. -/
def displayCells (r : Row) : List PyVal :=
  [PyVal.str r.competition, playerCell r, PyVal.str r.position,
   PyVal.str r.nationality, PyVal.str r.debutClub, PyVal.str r.opponent,
   dateCell r, optNum r.ageAtDebut, optNum r.goalsFor, optNum r.goalsAgainst,
   optNum r.appearances, optNum r.goals, optNum r.minutesPlayed,
   optNum r.valueAtDebut, optNum r.currentMarketValue,
   optNum (calc_percent_change r.valueAtDebut r.currentMarketValue)]

/-- The filtered, sorted rows backing `final_df`. -/
def finalRows (sel : Selections) (raw : List Row) : List Row :=
  sortByDateDesc (applyFilters sel (loadAndScreen raw))

/-- Model of `final_df.to_excel`: the export serializes the raw cell values
of `final_df` (no styler formatting is applied to the export). -/
def exportedTable (sel : Selections) (raw : List Row) : List (List PyVal) :=
  (finalRows sel raw).map displayCells

/-- Round to the nearest integer, ties to even, as float formatting does. -/
def roundHalfEven (x : ℚ) : ℤ :=
  let f := x.floor
  let frac := x - (f : ℚ)
  if frac < 1 / 2 then f
  else if 1 / 2 < frac then f + 1
  else if f % 2 = 0 then f else f + 1

/-- Regroup a reversed digit list into blocks of three, comma-separated. -/
def group3 : List Char → List Char
  | a :: b :: c :: d :: rest => a :: b :: c :: ',' :: group3 (d :: rest)
  | l => l

/-- Render a natural number with thousands separators, as `{x:,.0f}` does. -/
def commaSep (n : Nat) : String :=
  ((group3 (Nat.toDigits 10 n).reverse).reverse).asString

/-- Model of `money_format`: NaN renders as the euro-zero string, otherwise
a euro sign and the rounded value with thousands separators. -/
def money_format (x : Option ℚ) : String :=
  match x with
  | none => "€0"
  | some q =>
      let n := roundHalfEven q
      if n < 0 then "€-" ++ commaSep n.natAbs else "€" ++ commaSep n.natAbs

/-- Python `int()`: truncation toward zero. -/
def truncInt (q : ℚ) : ℤ :=
  if 0 ≤ q then q.floor else q.ceil

/-- Model of `integer_format`: NaN renders as "0", otherwise the truncated
integer with no separators. -/
def integer_format (x : Option ℚ) : String :=
  match x with
  | none => "0"
  | some q => toString (truncInt q)

/-- Model of `pct_format`: NaN renders as the empty string, otherwise
`{x:+.1f}` followed by a percent sign: an explicit sign and one decimal. -/
def pct_format (x : Option ℚ) : String :=
  match x with
  | none => ""
  | some q =>
      let m := roundHalfEven (q * 10)
      let sign := if q < 0 then "-" else "+"
      sign ++ toString (m.natAbs / 10) ++ "." ++ toString (m.natAbs % 10) ++ "%"

/-- A concrete row with a valid profile URL, used to evaluate the pipeline. -/
def sampleRow : Row :=
  { competition := "Bundesliga", country := some "Germany",
    playerName := "John Doe", position := "FW", nationality := "X",
    debutClub := "Club", opponent := "Opp",
    debutDate := some ⟨2020, 3, 5⟩, debutMonth := some "Mar",
    ageAtDebut := some 20, goalsFor := some 1, goalsAgainst := some 0,
    appearances := some 3, goals := some 2, minutesPlayed := some 100,
    valueAtDebut := some 1000, currentMarketValue := some 1500,
    playerUrl := PyVal.str "http://a.bc" }

/-- The all-pass selections: every multiselect on "All", wide slider bounds. -/
def allSel : Selections := ⟨["All"], ["All"], ["All"], 50, 0⟩

/-- A concrete row whose competition name contains parentheses. -/
def parenRow : Row :=
  { sampleRow with competition := "A (B)", country := some "C",
                   playerUrl := PyVal.null }

/-- A concrete row with a null age at debut. -/
def nullAgeRow : Row :=
  { sampleRow with ageAtDebut := none }

/-- Characterization of the NaN-propagating comparison pattern
`column.elim false (fun a => decide (p a))`. -/
lemma optElim_iff {α : Type} (o : Option α) (p : α → Prop) [DecidablePred p] :
    (o.elim false (fun a => decide (p a)) = true) ↔ ∃ a, o = some a ∧ p a := by
  cases o <;> simp

/-- Membership in a conditionally applied filter stage. -/
lemma mem_if_filter {g : Prop} [Decidable g] {p : Row → Bool} {rows : List Row}
    {r : Row} :
    (r ∈ if g then rows.filter p else rows) ↔ r ∈ rows ∧ (g → p r = true) := by
  split_ifs with h
  · rw [List.mem_filter]
    tauto
  · tauto

/-- C1: the derived percent change is absent exactly when the value at debut
is null, the current market value is null, or the value at debut is zero;
in every other case it equals `(current - baseline) / baseline * 100`. -/
theorem c1_percent_change (b c : Option ℚ) :
    (calc_percent_change b c = none ↔ b = none ∨ c = none ∨ b = some 0) ∧
    (∀ qb qc : ℚ, b = some qb → c = some qc → qb ≠ 0 →
      calc_percent_change b c = some ((qc - qb) / qb * 100)) := by
  constructor
  · cases b with
    | none => simp [calc_percent_change]
    | some qb =>
      cases c with
      | none => simp [calc_percent_change]
      | some qc => by_cases h : qb = 0 <;> simp [calc_percent_change, h]
  · rintro qb qc rfl rfl h
    simp [calc_percent_change, h]

/-- Witness for C1 at debut value 1000 and current value 1500. -/
theorem c1_percent_change_witness :
    calc_percent_change (some 1000) (some 1500) = some 50 := by
  have h := (c1_percent_change (some 1000) (some 1500)).2 1000 1500 rfl rfl
    (by norm_num)
  rw [h]
  norm_num

/-- C6: a competition literally named Bundesliga with country Germany is
relabeled before key/label derivation, so both derived fields carry the
new name; with any other country the row is unchanged. -/
theorem c6_bundesliga_relabel (r : Row) (hc : r.competition = "Bundesliga") :
    (r.country = some "Germany" →
      (normalizeRow r).competition = "1. Bundesliga" ∧
      compCountryID (normalizeRow r) = "1. Bundesliga||Germany" ∧
      compLabelRow (normalizeRow r) = "1. Bundesliga (Germany)") ∧
    (r.country ≠ some "Germany" →
      (normalizeRow r).competition = "Bundesliga" ∧
      compCountryID (normalizeRow r) = compKey "Bundesliga" (r.country.getD "") ∧
      compLabelRow (normalizeRow r) = compLabel "Bundesliga" (r.country.getD "")) := by
  constructor
  · intro hg
    refine ⟨?_, ?_, ?_⟩ <;>
      simp [normalizeRow, canonComp, compCountryID, compLabelRow, hc, hg]
  · intro hg
    refine ⟨?_, ?_, ?_⟩ <;>
      simp [normalizeRow, canonComp, compCountryID, compLabelRow, compKey,
        compLabel, hc, hg]

/-- Witness for C6 at the sample Bundesliga/Germany row. -/
theorem c6_bundesliga_relabel_witness :
    compCountryID (normalizeRow sampleRow) = "1. Bundesliga||Germany" ∧
    compLabelRow (normalizeRow sampleRow) = "1. Bundesliga (Germany)" := by
  have h := (c6_bundesliga_relabel sampleRow rfl).1 rfl
  exact ⟨h.2.1, h.2.2⟩

/-- C7: the working set is exactly the loaded rows whose age at debut is a
present, nonnegative number; rows failing the screen are removed from the
set itself, not merely hidden. -/
theorem c7_age_screen (raw : List Row) (r : Row) :
    r ∈ loadAndScreen raw ↔
      (∃ r0, r0 ∈ raw ∧ normalizeRow r0 = r) ∧
        ∃ a, r.ageAtDebut = some a ∧ 0 ≤ a := by
  unfold loadAndScreen loadData agePred
  rw [List.mem_filter, List.mem_map]
  constructor
  · rintro ⟨hm, hp⟩
    exact ⟨hm, (optElim_iff r.ageAtDebut (fun a => 0 ≤ a)).mp hp⟩
  · rintro ⟨hm, hp⟩
    exact ⟨hm, (optElim_iff r.ageAtDebut (fun a => 0 ≤ a)).mpr hp⟩

/-- C10: a row whose age at debut is null is excluded from the working set
by the age screen, just like a row with a negative age. -/
theorem c10_null_age_excluded (raw : List Row) (r : Row)
    (h : r.ageAtDebut = none) : r ∉ loadAndScreen raw := by
  intro hmem
  unfold loadAndScreen at hmem
  have hp := (List.mem_filter.mp hmem).2
  simp [agePred, h] at hp

/-- Witness for C10: the concrete null-age row is not in the working set
built from a table containing it. -/
theorem c10_null_age_excluded_witness :
    nullAgeRow ∉ loadAndScreen [nullAgeRow] :=
  c10_null_age_excluded [nullAgeRow] nullAgeRow rfl

/-- An inactive multiselect guard turns into the dimension disjunction. -/
lemma guard_imp_iff {E I P : Prop} [Decidable E] [Decidable I] :
    ((¬E ∧ ¬I) → P) ↔ (E ∨ I ∨ P) := by
  by_cases hE : E
  · tauto
  · by_cases hI : I <;> tauto

/-- C3: a row appears in the filtered result exactly when it satisfies all
five dimensions independently; a multiselect dimension whose selection is
empty or contains "All" passes every row. -/
theorem c3_filter_conjunction (sel : Selections) (rows : List Row) (r : Row) :
    r ∈ applyFilters sel rows ↔
      r ∈ rows ∧ compDim sel r ∧ monthDim sel r ∧ yearDim sel r ∧
        ageDim sel r ∧ minutesDim sel r := by
  simp only [applyFilters]
  rw [List.mem_filter, List.mem_filter, mem_if_filter, mem_if_filter,
    mem_if_filter]
  simp only [decide_eq_true_eq, optElim_iff, ne_eq, guard_imp_iff]
  unfold compDim monthDim yearDim ageDim minutesDim
  simp only [and_assoc]

/-- A defined percent change never renders as the empty string. -/
lemma pct_format_some_ne (q : ℚ) : pct_format (some q) ≠ "" := by
  intro h
  have hd := congrArg String.data h
  have he : ("" : String).data = [] := rfl
  by_cases hq : q < 0
  · have h1 : ("-" : String).data = ['-'] := rfl
    simp [pct_format, hq, String.data_append, h1, he] at hd
  · have h1 : ("+" : String).data = ['+'] := rfl
    simp [pct_format, hq, String.data_append, h1, he] at hd

/-- C8: null money renders as the euro-zero string, non-null money with
thousands separators and no decimals, null counts as "0", defined percent
changes with an explicit sign and one decimal, undefined percent changes as
the empty string; the money-zero versus percent-empty asymmetry holds. -/
theorem c8_display_formats :
    money_format none = "€0" ∧
    money_format (some 1234567) = "€1,234,567" ∧
    money_format (some (-1234)) = "€-1,234" ∧
    money_format (some (3 / 2)) = "€2" ∧
    integer_format none = "0" ∧
    integer_format (some 7) = "7" ∧
    pct_format (some 50) = "+50.0%" ∧
    pct_format (some (-25 / 2)) = "-12.5%" ∧
    (∀ x : Option ℚ, pct_format x = "" ↔ x = none) ∧
    (∀ q : ℚ, 0 ≤ q → (pct_format (some q)).data.head? = some '+') ∧
    (∀ q : ℚ, q < 0 → (pct_format (some q)).data.head? = some '-') ∧
    money_format none ≠ pct_format none := by
  refine ⟨by decide, by with_unfolding_all decide, by with_unfolding_all decide,
    by with_unfolding_all decide, by decide, by with_unfolding_all decide,
    by with_unfolding_all decide, by with_unfolding_all decide, ?_, ?_, ?_,
    by decide⟩
  · intro x
    cases x with
    | none => simp [pct_format]
    | some q => simp [pct_format_some_ne q]
  · intro q hq
    have h1 : ("+" : String).data = ['+'] := rfl
    simp [pct_format, not_lt.mpr hq, String.data_append, h1]
  · intro q hq
    have h1 : ("-" : String).data = ['-'] := rfl
    simp [pct_format, hq, String.data_append, h1]

/-- Witness for C8: the sign rule evaluated at the concrete value 50. -/
theorem c8_display_formats_witness :
    (0 : ℚ) ≤ 50 ∧ (pct_format (some 50)).data.head? = some '+' := by
  have h := c8_display_formats
  exact ⟨by norm_num, h.2.2.2.2.2.2.2.2.2.1 50 (by norm_num)⟩

/-- C9: the displayed player cell is a hyperlink wrapping the name exactly
when the URL cell is a non-null string passing `sanitize_url`; every
missing, non-string or invalid URL falls back to the plain name, and the
cell is always defined (never an error). -/
theorem c9_player_link :
    (∀ r : Row, r.playerUrl = PyVal.null → playerCell r = PyVal.str r.playerName) ∧
    (∀ r : Row, ∀ q : ℚ, r.playerUrl = PyVal.num q →
      playerCell r = PyVal.str r.playerName) ∧
    (∀ r : Row, ∀ u : String, r.playerUrl = PyVal.str u → sanitize_url u = true →
      playerCell r = PyVal.str (anchorHtml u r.playerName)) ∧
    (∀ r : Row, ∀ u : String, r.playerUrl = PyVal.str u → sanitize_url u = false →
      playerCell r = PyVal.str r.playerName) ∧
    sanitize_url "http://example.com" = true ∧
    sanitize_url "www.example.com" = false := by
  refine ⟨?_, ?_, ?_, ?_, by decide, by decide⟩
  · intro r h
    simp [playerCell, h]
  · intro r q h
    simp [playerCell, h]
  · intro r u h hs
    simp [playerCell, h, hs]
  · intro r u h hs
    simp [playerCell, h, hs]

/-- Witness for C9: the sample row with a valid URL gets the anchor markup. -/
theorem c9_player_link_witness :
    playerCell sampleRow = PyVal.str (anchorHtml "http://a.bc" sampleRow.playerName) :=
  c9_player_link.2.2.1 sampleRow "http://a.bc" rfl (by decide)

/-- Counterexample for C2: for a filtered result containing a row with a
valid profile URL, the exported player cell holds the hyperlink markup,
not the plain player name. -/
theorem c2_export_counterexample :
    ((exportedTable allSel [sampleRow]).headD []).get? 1 =
      some (PyVal.str "<a href=\"http://a.bc\" target=\"_blank\">John Doe</a>") ∧
    PyVal.str "<a href=\"http://a.bc\" target=\"_blank\">John Doe</a>" ≠
      PyVal.str "John Doe" :=
  ⟨by decide, by decide⟩

/-- C2 (amended): the export serializes exactly the rows of the final
display table, in order, with the raw underlying cell values (monetary
cells keep their numbers, not the styler strings); the player cell holds
the anchor markup whenever the URL is a valid string URL. -/
theorem c2_export_amended (sel : Selections) (raw : List Row) :
    exportedTable sel raw = (finalRows sel raw).map displayCells ∧
    (∀ r : Row, (displayCells r).length = displayColumns.length) ∧
    (∀ r : Row, (displayCells r).get? 1 = some (playerCell r)) ∧
    (∀ r : Row, ∀ q : ℚ, r.valueAtDebut = some q →
      (displayCells r).get? 13 = some (PyVal.num q)) ∧
    (∀ r : Row, ∀ u : String, r.playerUrl = PyVal.str u → sanitize_url u = true →
      (displayCells r).get? 1 = some (PyVal.str (anchorHtml u r.playerName))) := by
  refine ⟨rfl, fun r => rfl, fun r => rfl, ?_, ?_⟩
  · intro r q h
    simp [displayCells, h, optNum]
  · intro r u h hs
    simp [displayCells, playerCell, h, hs]

/-- Witness for C2 (amended) at the sample row. -/
theorem c2_export_amended_witness :
    (displayCells sampleRow).get? 13 = some (PyVal.num 1000) ∧
    (displayCells sampleRow).get? 1 =
      some (PyVal.str (anchorHtml "http://a.bc" sampleRow.playerName)) := by
  have h := c2_export_amended allSel [sampleRow]
  exact ⟨h.2.2.2.1 sampleRow 1000 rfl,
    h.2.2.2.2 sampleRow "http://a.bc" rfl (by decide)⟩

/-- Two strings with the same character data are equal. -/
lemma stringDataExt {s t : String} (h : s.data = t.data) : s = t :=
  congrArg String.mk h

/-- A pair replacement passes over a block that contains no occurrence of
the second pattern character and is not followed by one. -/
lemma pyReplacePair_append (a b : Char) (rep : List Char) (xs : List Char) :
    ∀ ys : List Char, b ∉ xs → (∀ y ∈ ys.head?, y ≠ b) →
      pyReplacePair a b rep (xs ++ ys) = xs ++ pyReplacePair a b rep ys := by
  induction xs with
  | nil => intro ys _ _; rfl
  | cons x xs ih =>
    intro ys hb hy
    cases xs with
    | nil =>
      cases ys with
      | nil => rfl
      | cons y t =>
        have hyb : y ≠ b := hy y rfl
        show pyReplacePair a b rep (x :: y :: t) =
          x :: pyReplacePair a b rep (y :: t)
        simp only [pyReplacePair]
        rw [if_neg (fun h => hyb h.2)]
    | cons x2 xs2 =>
      have hx2 : x2 ≠ b := fun h => hb (by simp [h])
      have hb2 : b ∉ x2 :: xs2 := fun h => hb (List.mem_cons_of_mem _ h)
      show pyReplacePair a b rep (x :: (x2 :: xs2 ++ ys)) =
        x :: (x2 :: xs2 ++ pyReplacePair a b rep ys)
      simp only [List.cons_append]
      simp only [pyReplacePair]
      rw [if_neg (fun h => hx2 h.2)]
      have hstep := ih ys hb2 hy
      simp only [List.cons_append] at hstep
      rw [hstep]

/-- A single-character replacement distributes over append. -/
lemma pyReplaceChar_append (a : Char) (rep : List Char) (xs ys : List Char) :
    pyReplaceChar a rep (xs ++ ys) =
      pyReplaceChar a rep xs ++ pyReplaceChar a rep ys := by
  induction xs with
  | nil => rfl
  | cons x xs ih => by_cases h : x = a <;> simp [pyReplaceChar, h, ih]

/-- A single-character replacement leaves a block without the pattern alone. -/
lemma pyReplaceChar_eq_self (a : Char) (rep : List Char) (xs : List Char)
    (h : a ∉ xs) : pyReplaceChar a rep xs = xs := by
  induction xs with
  | nil => rfl
  | cons x xs ih =>
    have hx : x ≠ a := fun hh => h (by simp [hh])
    have hxs : a ∉ xs := fun hh => h (List.mem_cons_of_mem _ hh)
    simp [pyReplaceChar, hx, ih hxs]

/-- String-level round trip: converting a label built from parenthesis-free
competition and country strings recovers the composite key. -/
lemma labelToId_compLabel (comp country : String)
    (hc1 : '(' ∉ comp.toList) (hc2 : ')' ∉ comp.toList)
    (hk1 : '(' ∉ country.toList) (hk2 : ')' ∉ country.toList) :
    labelToId (compLabel comp country) = compKey comp country := by
  have e1 : (" (" : String).data = [' ', '('] := rfl
  have e2 : (")" : String).data = [')'] := rfl
  have e3 : ("||" : String).data = ['|', '|'] := rfl
  have hlab : (compLabel comp country).toList
      = comp.toList ++ (' ' :: '(' :: (country.toList ++ [')'])) := by
    show (comp ++ " (" ++ country ++ ")").data
      = comp.data ++ (' ' :: '(' :: (country.data ++ [')']))
    simp [String.data_append, e1, e2]
  unfold labelToId
  rw [hlab]
  rw [pyReplacePair_append ' ' '(' ['|', '|'] comp.toList _ hc1
    (by intro y hy; simp at hy; simp [← hy])]
  have hhead : pyReplacePair ' ' '(' ['|', '|']
      (' ' :: '(' :: (country.toList ++ [')']))
      = '|' :: '|' :: pyReplacePair ' ' '(' ['|', '|'] (country.toList ++ [')']) := by
    simp [pyReplacePair]
  rw [hhead]
  rw [pyReplacePair_append ' ' '(' ['|', '|'] country.toList [')'] hk1
    (by intro y hy; simp at hy; simp [← hy])]
  have hsingle : pyReplacePair ' ' '(' ['|', '|'] [')'] = [')'] := rfl
  rw [hsingle]
  rw [show comp.toList ++ ('|' :: '|' :: (country.toList ++ [')']))
      = comp.toList ++ (['|', '|'] ++ (country.toList ++ [')'])) from rfl]
  rw [pyReplaceChar_append, pyReplaceChar_append, pyReplaceChar_append]
  rw [pyReplaceChar_eq_self _ _ _ hc2, pyReplaceChar_eq_self _ _ _ hk2]
  have hbar : pyReplaceChar ')' [] ['|', '|'] = ['|', '|'] := rfl
  have hpar : pyReplaceChar ')' [] [')'] = [] := rfl
  rw [hbar, hpar]
  apply stringDataExt
  show comp.data ++ (['|', '|'] ++ (country.data ++ []))
    = (comp ++ "||" ++ country).data
  simp [String.data_append, e3]

/-- Counterexample for C4: a competition name containing parentheses makes
the label-to-key conversion disagree with the row's composite key. -/
theorem c4_label_key_counterexample :
    compLabelRow (normalizeRow parenRow) = "A (B) (C)" ∧
    compCountryID (normalizeRow parenRow) = "A (B)||C" ∧
    labelToId (compLabelRow (normalizeRow parenRow)) ≠
      compCountryID (normalizeRow parenRow) :=
  ⟨by decide, by decide, by decide⟩

/-- C4 (amended): for every row whose competition and country contain no
parenthesis characters, converting the displayed label back through the
join/split convention yields exactly the row's composite key. -/
theorem c4_label_key_roundtrip (r : Row)
    (hc : ∀ c ∈ r.competition.toList, c ≠ '(' ∧ c ≠ ')')
    (hk : ∀ c ∈ (r.country.getD "").toList, c ≠ '(' ∧ c ≠ ')') :
    labelToId (compLabelRow r) = compCountryID r := by
  have h := labelToId_compLabel r.competition (r.country.getD "")
    (fun hmem => ((hc _ hmem).1 rfl).elim)
    (fun hmem => ((hc _ hmem).2 rfl).elim)
    (fun hmem => ((hk _ hmem).1 rfl).elim)
    (fun hmem => ((hk _ hmem).2 rfl).elim)
  exact h

/-- Witness for C4 (amended) at the parenthesis-free sample row. -/
theorem c4_label_key_roundtrip_witness :
    labelToId (compLabelRow sampleRow) = compCountryID sampleRow :=
  c4_label_key_roundtrip sampleRow (by decide) (by decide)

end Debutants
